import Mathlib

/-!
Verification of the URL query-parameter state synchronization subsystem:
the query-string codec (`parseUrlParams` / `buildQueryString`), the history
writer (`setUrlParams` / `setTableParams`) and the two stateful hooks
(`useUrlState`, `useTableUrlState`).

Modelling conventions:
* JavaScript primitive values occurring in this subsystem are `JsPrim`
  (string, non-negative integer, boolean, null, undefined); a parameter value
  is a primitive or an array of primitives (`JsVal`).  Numbers are modelled as
  exact naturals with decimal rendering, matching JavaScript behaviour on the
  safe-integer range this subsystem manipulates.
* A JavaScript object is an insertion-ordered association list with unique
  keys (`ParamObject`); property read and property assignment are `objGet`
  and `objSet`, object spread followed by assignments is `mergeObj`.
* A query string is modelled at the level of its decoded key/value pair list,
  which is exactly the content of a `URLSearchParams`: percent
  encoding/decoding on the wire is a bijection applied pairwise and is
  therefore omitted.  `parseUrlParams` consumes such a pair list in order, as
  `URLSearchParams.forEach` does; `buildQueryString` produces one, as the
  `URLSearchParams` built by the source does.
* Every history write is reified as a `WriteEffect` value recording the
  serialized pairs and the push/replace choice; `applyWrite` gives the effect
  of such a write on an abstract browser `World` (current query plus history
  stack length).  Hook callbacks are modelled as pure functions from their
  inputs to the new in-memory state together with the list of emitted writes.
-/

/-- Primitive JavaScript values handled by the codec. -/
inductive JsPrim where
  | str (s : String)
  | num (n : Nat)
  | bool (b : Bool)
  | null
  | undef
deriving DecidableEq, Repr

/-- A parameter value: a primitive or an array of primitives
(`UrlParams` value type in the source). -/
inductive JsVal where
  | prim (p : JsPrim)
  | arr (elems : List JsPrim)
deriving DecidableEq, Repr

/-- A JavaScript object holding parameters: insertion-ordered association
list; a well-formed object has pairwise distinct keys. -/
abbrev ParamObject : Type := List (String × JsVal)

/-- Property read `o[k]`: `none` when the key is absent. -/
def objGet : ParamObject → String → Option JsVal
  | [], _ => none
  | (k₀, v₀) :: rest, k => if k₀ = k then some v₀ else objGet rest k

/-- Property assignment `o[k] = v`: overwrites in place when the key is
present, appends otherwise (JavaScript object insertion order). -/
def objSet : ParamObject → String → JsVal → ParamObject
  | [], k, v => [(k, v)]
  | (k₀, v₀) :: rest, k, v =>
    if k₀ = k then (k, v) :: rest else (k₀, v₀) :: objSet rest k v

/-- Object spread `{ ...base, ...overlay }`: assign the overlay entries over
the base object in order. -/
def mergeObj (base : ParamObject) (overlay : ParamObject) : ParamObject :=
  overlay.foldl (fun acc kv => objSet acc kv.1 kv.2) base

/-- Keys of an object, in insertion order. -/
def objKeys (o : ParamObject) : List String :=
  o.map Prod.fst

/-- Decimal digit character, as used by JavaScript number-to-string
conversion. -/
def digitChar (d : Nat) : Char := Char.ofNat (48 + d)

/-- Decimal digits of a natural number below ten to the successor of the
fuel, most significant first; the fuel only bounds the recursion depth. -/
def natDigitsAux : Nat → Nat → List Char
  | 0, n => [digitChar n]
  | fuel + 1, n =>
    if n < 10 then [digitChar n]
    else natDigitsAux fuel (n / 10) ++ [digitChar (n % 10)]

/-- Decimal digits of a natural number, most significant first. -/
def natDigits (n : Nat) : List Char := natDigitsAux n n

/-- JavaScript `String(n)` for a non-negative integer: its decimal digits. -/
def natToString (n : Nat) : String := String.mk (natDigits n)

/-- JavaScript `String(value)` for a primitive. -/
def jsString : JsPrim → String
  | .str s => s
  | .num n => natToString n
  | .bool true => "true"
  | .bool false => "false"
  | .null => "null"
  | .undef => "undefined"

/-- The test of the regular expression `^\d+$` on the character content of a
string: non-empty and all decimal digits. -/
def matchesDigits (value : String) : Bool :=
  !value.data.isEmpty && value.data.all Char.isDigit

/-- JavaScript `parseInt(value, 10)` on a string of decimal digits: the usual
left fold. -/
def parseIntChars (l : List Char) : Nat :=
  l.foldl (fun n c => n * 10 + (c.toNat - '0'.toNat)) 0

/-- Decimal value of an all-digit string. -/
def parseIntDec (value : String) : Nat := parseIntChars value.data

/-- Type-inference step of `parseUrlParams` (src/unnamed/part_010, lines
35-41): `"true"` and `"false"` become booleans, a string matching `^\d+$`
becomes the integer `parseInt(value, 10)`, anything else stays a string. -/
def coerceValue (value : String) : JsVal :=
  if value = "true" then .prim (.bool true)
  else if value = "false" then .prim (.bool false)
  else if matchesDigits value then .prim (.num (parseIntDec value))
  else .prim (.str value)

/-- One `params.forEach` iteration of `parseUrlParams` (src/unnamed/part_010,
lines 26-42), as a function of the accumulated value for the key: when the
key already has a defined value, arrays are extended and non-array values are
wrapped into a two-element array with the raw string appended; otherwise the
raw string is coerced. -/
def stepVal : Option JsVal → String → JsVal
  | some (.arr l), value => .arr (l ++ [.str value])
  | some (.prim .undef), value => coerceValue value
  | some (.prim p), value => .arr [p, .str value]
  | none, value => coerceValue value

/-- Processing of one query pair by `parseUrlParams`: assign the stepped
value to the key. -/
def parseStep (result : ParamObject) (key value : String) : ParamObject :=
  objSet result key (stepVal (objGet result key) value)

/-- The codec parser `parseUrlParams(defaults)` (src/unnamed/part_010, lines
20-45), with the current query string made an explicit argument: start from a
copy of the defaults and fold the query pairs in order. -/
def parseUrlParams (qs : List (String × String)) (defaults : ParamObject) :
    ParamObject :=
  qs.foldl (fun result kv => parseStep result kv.1 kv.2) defaults

/-- Values serialized by one entry of `buildQueryString`
(src/unnamed/part_010, lines 50-65): `undefined`, `null` and the empty string
are skipped, arrays append one pair per element, every other value yields one
pair with its JavaScript string conversion. -/
def entryPairs (key : String) (value : JsVal) : List (String × String) :=
  if value = .prim .undef ∨ value = .prim .null ∨ value = .prim (.str "") then []
  else
    match value with
    | .arr l => l.map (fun p => (key, jsString p))
    | .prim p => [(key, jsString p)]

/-- The codec serializer `buildQueryString` (src/unnamed/part_010, lines
50-65), at the level of the `URLSearchParams` pair list it builds from
`Object.entries(params)`. -/
def buildQueryString (params : ParamObject) : List (String × String) :=
  params.flatMap (fun kv => entryPairs kv.1 kv.2)

/-- Occurrences of a key in a query pair list, in order. -/
def occs (k : String) (qs : List (String × String)) : List String :=
  (qs.filter (fun kv => kv.1 = k)).map Prod.snd

/-- Options record of `setUrlParams`; a missing field is `none`. -/
structure HistOptions where
  replace : Option Bool
  scroll : Option Bool
deriving DecidableEq, Repr

/-- A reified history write: the serialized query pairs and whether the write
replaces the current history entry (otherwise it pushes a new one). -/
structure WriteEffect where
  pairs : List (String × String)
  replace : Bool
deriving DecidableEq, Repr

/-- The history writer `setUrlParams` (src/unnamed/part_010, lines 70-89):
serializes the params and performs `history.replaceState` exactly when
`options?.replace` is truthy, otherwise `history.pushState`.  The path and
fragment pass through unchanged and are not modelled; the deferred scroll
restoration has no effect on state or history. -/
def setUrlParams (params : ParamObject) (options : Option HistOptions) :
    WriteEffect :=
  { pairs := buildQueryString params
    replace :=
      match options with
      | some o => o.replace.getD false
      | none => false }

/-- The table preset writer `setTableParams` (src/unnamed/part_010, lines
134-139): calls `setUrlParams(params, { replace: true, ...options })`, so the
replace flag defaults to `true` and is overridden only when the caller
supplies one. -/
def setTableParams (params : ParamObject) (options : Option HistOptions) :
    WriteEffect :=
  setUrlParams params
    (some { replace := some ((options.bind HistOptions.replace).getD true)
            scroll := options.bind HistOptions.scroll })

/-- Abstract browser world: the decoded query pairs of the current location
and the length of the history back-stack. -/
structure World where
  query : List (String × String)
  histLen : Nat
deriving DecidableEq, Repr

/-- Effect of one history write on the world: a replacing write keeps the
stack length, a pushing write grows it by one. -/
def applyWrite (w : World) (e : WriteEffect) : World :=
  if e.replace then { query := e.pairs, histLen := w.histLen }
  else { query := e.pairs, histLen := w.histLen + 1 }

/-- Base object `{ page: 1, pageSize: 10 }` of the table preset. -/
def tableBase : ParamObject :=
  [("page", .prim (.num 1)), ("pageSize", .prim (.num 10))]

/-- The table preset parser `parseTableParams(defaults)`
(src/unnamed/part_010, lines 126-132): parse over
`{ page: 1, pageSize: 10, ...defaults }`. -/
def parseTableParams (qs : List (String × String))
    (defaults : Option ParamObject) : ParamObject :=
  parseUrlParams qs (mergeObj tableBase (defaults.getD []))

namespace useUrlState

/-- Popstate handler of `useUrlState` (src/starter/src/hooks/useUrlState.ts,
lines 36-43): the new in-memory state is re-parsed from the current query
string over the defaults, and no history write is emitted. -/
def handlePopState (defaults : Option ParamObject) (w : World) :
    ParamObject × List WriteEffect :=
  (parseUrlParams w.query (defaults.getD []), [])

/-- The `reset` callback of `useUrlState`
(src/starter/src/hooks/useUrlState.ts, lines 63-67): the new in-memory state
is `defaults as T` itself, which is `undefined` when no defaults were
supplied, while the history write serializes `next ?? {}`. -/
def reset (defaults : Option ParamObject) :
    Option ParamObject × WriteEffect :=
  (defaults, setUrlParams (defaults.getD []) none)

end useUrlState

namespace useTableUrlState

/-- Popstate handler of `useTableUrlState`
(src/starter/src/hooks/useUrlState.ts, lines 92-98): re-parse the table
params from the current query string; no history write is emitted. -/
def handlePopState (defaults : Option ParamObject) (w : World) :
    ParamObject × List WriteEffect :=
  (parseTableParams w.query defaults, [])

/-- The `setAndSync` helper (src/starter/src/hooks/useUrlState.ts, lines
100-103): store the params and write them through `setTableParams` with no
options. -/
def setAndSync (params : ParamObject) : ParamObject × WriteEffect :=
  (params, setTableParams params none)

/-- Mutator `setPage(page)`: `setAndSync({ ...state, page })`. -/
def setPage (state : ParamObject) (page : Nat) : ParamObject × WriteEffect :=
  setAndSync (objSet state "page" (.prim (.num page)))

/-- Mutator `setPageSize(pageSize)`:
`setAndSync({ ...state, page: 1, pageSize })`. -/
def setPageSize (state : ParamObject) (pageSize : Nat) :
    ParamObject × WriteEffect :=
  setAndSync (objSet (objSet state "page" (.prim (.num 1)))
    "pageSize" (.prim (.num pageSize)))

/-- Mutator `setSearch(search)`:
`setAndSync({ ...state, page: 1, search: search || undefined })`; the empty
string is falsy, so it is stored as `undefined`. -/
def setSearch (state : ParamObject) (search : String) :
    ParamObject × WriteEffect :=
  setAndSync (objSet (objSet state "page" (.prim (.num 1)))
    "search" (if search = "" then .prim .undef else .prim (.str search)))

/-- Mutator `setSort(sortField, sortOrder)`:
`setAndSync({ ...state, sortField, sortOrder })`. -/
def setSort (state : ParamObject) (sortField sortOrder : String) :
    ParamObject × WriteEffect :=
  setAndSync (objSet (objSet state "sortField" (.prim (.str sortField)))
    "sortOrder" (.prim (.str sortOrder)))

/-- Mutator `setFilter(key, value)`:
`setAndSync({ ...state, page: 1, [key]: value === '' ? undefined : value })`.
The computed key is assigned after `page: 1`, so a caller passing
`key = "page"` overrides the reset. -/
def setFilter (state : ParamObject) (key : String) (value : JsVal) :
    ParamObject × WriteEffect :=
  setAndSync (objSet (objSet state "page" (.prim (.num 1)))
    key (if value = .prim (.str "") then .prim .undef else value))

/-- The `reset` callback of `useTableUrlState`
(src/starter/src/hooks/useUrlState.ts, lines 129-133): the next state is
`{ page: 1, pageSize: 10, ...defaults }`, stored and written through
`setTableParams`; the current state is ignored. -/
def reset (defaults : Option ParamObject) (_state : ParamObject) :
    ParamObject × WriteEffect :=
  let next := mergeObj tableBase (defaults.getD [])
  (next, setTableParams next none)

end useTableUrlState

/-! ### Association-list object lemmas -/

@[simp]
theorem objGet_nil (k : String) : objGet [] k = none := rfl

@[simp]
theorem objGet_cons (k₀ k : String) (v₀ : JsVal) (rest : ParamObject) :
    objGet ((k₀, v₀) :: rest) k = if k₀ = k then some v₀ else objGet rest k :=
  rfl

@[simp]
theorem objKeys_nil : objKeys [] = [] := rfl

@[simp]
theorem objKeys_cons (k₀ : String) (v₀ : JsVal) (rest : ParamObject) :
    objKeys ((k₀, v₀) :: rest) = k₀ :: objKeys rest := rfl

@[simp]
theorem objKeys_append (p q : ParamObject) :
    objKeys (p ++ q) = objKeys p ++ objKeys q := by
  simp [objKeys]

theorem objGet_eq_none_of_not_mem (p : ParamObject) (k : String)
    (h : k ∉ objKeys p) : objGet p k = none := by
  induction p with
  | nil => rfl
  | cons kv rest ih =>
    obtain ⟨k₀, v₀⟩ := kv
    simp only [objKeys_cons, List.mem_cons, not_or] at h
    simp [Ne.symm h.1, ih h.2]

theorem objSet_eq_append_of_not_mem (p : ParamObject) (k : String) (v : JsVal)
    (h : k ∉ objKeys p) : objSet p k v = p ++ [(k, v)] := by
  induction p with
  | nil => rfl
  | cons kv rest ih =>
    obtain ⟨k₀, v₀⟩ := kv
    simp only [objKeys_cons, List.mem_cons, not_or] at h
    simp [objSet, Ne.symm h.1, ih h.2]

theorem objGet_objSet (p : ParamObject) (k k₁ : String) (v : JsVal) :
    objGet (objSet p k v) k₁ = if k = k₁ then some v else objGet p k₁ := by
  induction p with
  | nil => simp [objSet]
  | cons kv rest ih =>
    obtain ⟨k₀, v₀⟩ := kv
    simp only [objSet]
    by_cases h : k₀ = k
    · subst h
      by_cases h₁ : k₀ = k₁ <;> simp [h₁]
    · by_cases h₁ : k₀ = k₁
      · have hne : ¬k = k₁ := fun e => h (h₁.trans e.symm)
        have hne₁ : ¬k₁ = k := fun e => hne e.symm
        simp [h, h₁, hne, hne₁]
      · simp [h, h₁, ih]

theorem objKeys_objSet (p : ParamObject) (k : String) (v : JsVal) :
    objKeys (objSet p k v) =
      if k ∈ objKeys p then objKeys p else objKeys p ++ [k] := by
  induction p with
  | nil => simp [objSet]
  | cons kv rest ih =>
    obtain ⟨k₀, v₀⟩ := kv
    by_cases h : k₀ = k
    · subst h; simp [objSet]
    · have hne : ¬k = k₀ := fun e => h e.symm
      simp only [objSet, if_neg h, objKeys_cons, ih]
      by_cases hm : k ∈ objKeys rest <;> simp [hm, List.mem_cons, hne]

/-! ### Decimal rendering and parsing lemmas -/

theorem digitChar_toNat (d : Nat) (h : d < 10) :
    (digitChar d).toNat = 48 + d := by
  interval_cases d <;> rfl

theorem digitChar_isDigit (d : Nat) (h : d < 10) :
    (digitChar d).isDigit = true := by
  interval_cases d <;> rfl

theorem parseIntChars_append (l₁ l₂ : List Char) :
    parseIntChars (l₁ ++ l₂) =
      l₂.foldl (fun n c => n * 10 + (c.toNat - '0'.toNat))
        (parseIntChars l₁) := by
  simp [parseIntChars, List.foldl_append]

theorem parseIntChars_natDigitsAux (fuel : Nat) :
    ∀ n, n ≤ fuel → parseIntChars (natDigitsAux fuel n) = n := by
  induction fuel with
  | zero =>
    intro n hn
    interval_cases n
    rfl
  | succ fuel ih =>
    intro n hn
    by_cases h : n < 10
    · simp only [natDigitsAux, if_pos h, parseIntChars, List.foldl]
      rw [digitChar_toNat n h, show ('0'.toNat) = 48 from rfl]
      omega
    · simp only [natDigitsAux, if_neg h]
      rw [parseIntChars_append, ih (n / 10) (by omega), List.foldl]
      rw [digitChar_toNat (n % 10) (by omega), List.foldl]
      have : 48 + n % 10 - '0'.toNat = n % 10 := by
        have h48 : '0'.toNat = 48 := rfl
        omega
      rw [this]
      omega

theorem parseIntChars_natDigits (n : Nat) :
    parseIntChars (natDigits n) = n :=
  parseIntChars_natDigitsAux n n le_rfl

theorem natDigitsAux_all_isDigit (fuel : Nat) :
    ∀ n, n ≤ fuel → (natDigitsAux fuel n).all Char.isDigit = true := by
  induction fuel with
  | zero =>
    intro n hn
    interval_cases n
    rfl
  | succ fuel ih =>
    intro n hn
    by_cases h : n < 10
    · simp [natDigitsAux, if_pos h, digitChar_isDigit n h]
    · simp only [natDigitsAux, if_neg h, List.all_append]
      simp [ih (n / 10) (by omega), digitChar_isDigit (n % 10) (by omega)]

theorem natDigits_all_isDigit (n : Nat) :
    (natDigits n).all Char.isDigit = true :=
  natDigitsAux_all_isDigit n n le_rfl

theorem natDigitsAux_ne_nil (fuel n : Nat) : natDigitsAux fuel n ≠ [] := by
  cases fuel with
  | zero => simp [natDigitsAux]
  | succ fuel =>
    by_cases h : n < 10 <;> simp [natDigitsAux, h]

theorem natDigits_ne_nil (n : Nat) : natDigits n ≠ [] :=
  natDigitsAux_ne_nil n n

@[simp]
theorem natToString_data (n : Nat) : (natToString n).data = natDigits n := rfl

theorem matchesDigits_natToString (n : Nat) :
    matchesDigits (natToString n) = true := by
  simp [matchesDigits, List.isEmpty_iff, natDigits_ne_nil n,
    natDigits_all_isDigit n]

theorem ne_keyword_of_all_digits (s : String)
    (h : s.data.all Char.isDigit = true) : s ≠ "true" ∧ s ≠ "false" := by
  constructor <;> intro e <;> subst e <;> exact absurd h (by decide)

theorem parseIntDec_natToString (n : Nat) : parseIntDec (natToString n) = n := by
  simp [parseIntDec, parseIntChars_natDigits]

theorem coerceValue_natToString (n : Nat) :
    coerceValue (natToString n) = .prim (.num n) := by
  obtain ⟨h₁, h₂⟩ := ne_keyword_of_all_digits (natToString n)
    (by simpa using natDigits_all_isDigit n)
  simp [coerceValue, h₁, h₂, matchesDigits_natToString n,
    parseIntDec_natToString n]

theorem coerceValue_of_plain_str (s : String) (h₁ : s ≠ "true")
    (h₂ : s ≠ "false") (h₃ : matchesDigits s = false) :
    coerceValue s = .prim (.str s) := by
  simp [coerceValue, h₁, h₂, h₃]

/-! ### Tracing `parseUrlParams` one key at a time -/

/-- Accumulated value of one key after processing one further occurrence. -/
def stepFold (o : Option JsVal) (value : String) : Option JsVal :=
  some (stepVal o value)

@[simp]
theorem parseUrlParams_nil (d : ParamObject) : parseUrlParams [] d = d := rfl

@[simp]
theorem parseUrlParams_cons (k v : String) (rest : List (String × String))
    (d : ParamObject) :
    parseUrlParams ((k, v) :: rest) d = parseUrlParams rest (parseStep d k v) :=
  rfl

@[simp]
theorem occs_nil (k : String) : occs k [] = [] := rfl

theorem occs_cons (k k₀ v₀ : String) (rest : List (String × String)) :
    occs k ((k₀, v₀) :: rest) =
      if k₀ = k then v₀ :: occs k rest else occs k rest := by
  by_cases h : k₀ = k <;> simp [occs, List.filter_cons, h]

theorem objGet_parseStep (d : ParamObject) (k₀ v₀ : String) (k : String) :
    objGet (parseStep d k₀ v₀) k =
      if k₀ = k then some (stepVal (objGet d k₀) v₀) else objGet d k := by
  simp only [parseStep, objGet_objSet]

/-- Lookup of one key in the parse result is a fold of `stepVal` over the
occurrences of that key in the query, starting from its value in the
defaults. -/
theorem objGet_parseUrlParams (qs : List (String × String)) (d : ParamObject)
    (k : String) :
    objGet (parseUrlParams qs d) k =
      (occs k qs).foldl stepFold (objGet d k) := by
  induction qs generalizing d with
  | nil => rfl
  | cons kv rest ih =>
    obtain ⟨k₀, v₀⟩ := kv
    rw [parseUrlParams_cons, ih, occs_cons]
    by_cases h : k₀ = k
    · subst h
      rw [if_pos rfl, List.foldl_cons, objGet_parseStep, if_pos rfl]
      rfl
    · rw [if_neg h, objGet_parseStep, if_neg h]

theorem foldl_stepFold_arr (ws : List String) (l : List JsPrim) :
    ws.foldl stepFold (some (.arr l)) =
      some (.arr (l ++ ws.map JsPrim.str)) := by
  induction ws generalizing l with
  | nil => simp
  | cons w ws ih =>
    rw [List.foldl_cons]
    show ws.foldl stepFold (some (.arr (l ++ [.str w]))) = _
    rw [ih]
    simp

theorem stepVal_of_defined_prim (p : JsPrim) (hp : p ≠ .undef) (w : String) :
    stepVal (some (.prim p)) w = .arr [p, .str w] := by
  cases p <;> first
    | rfl
    | exact absurd rfl hp

theorem coerceValue_shape (v : String) :
    ∃ p : JsPrim, coerceValue v = .prim p ∧ p ≠ .undef := by
  unfold coerceValue
  split_ifs <;> exact ⟨_, rfl, by simp⟩

theorem stepFold_fresh (o : Option JsVal)
    (h : o = none ∨ o = some (.prim .undef)) (v : String) :
    stepFold o v = some (coerceValue v) := by
  rcases h with h | h <;> subst h <;> rfl

/-! ### First-occurrence coercion against the library decimal parser -/

theorem string_isEmpty_eq_data_isEmpty (s : String) :
    s.isEmpty = s.data.isEmpty := by
  rcases h : s.data.isEmpty with _ | _
  · rcases h₂ : s.isEmpty with _ | _
    · rfl
    · rw [String.isEmpty_iff] at h₂
      subst h₂
      simp at h
  · rw [List.isEmpty_iff] at h
    have : s = "" := by
      rw [String.ext_iff, h]
    subst this
    rfl

theorem toNat?_eq_matchesDigits (v : String) :
    v.toNat? = if matchesDigits v then some (parseIntDec v) else none := by
  rw [String.toNat?, String.isNat, String.all_eq, String.foldl_eq,
    string_isEmpty_eq_data_isEmpty]
  rfl

theorem coerceValue_eq_decision_table (v : String) :
    coerceValue v =
      if v = "true" then .prim (.bool true)
      else if v = "false" then .prim (.bool false)
      else
        match v.toNat? with
        | some n => .prim (.num n)
        | none => .prim (.str v) := by
  rw [coerceValue, toNat?_eq_matchesDigits]
  by_cases h : matchesDigits v <;> simp [h]

theorem matchesDigits_iff (v : String) :
    matchesDigits v = true ↔ (v.data ≠ [] ∧ v.data.all Char.isDigit = true) := by
  rw [matchesDigits, Bool.and_eq_true, Bool.not_eq_true']
  constructor
  · rintro ⟨h₁, h₂⟩
    refine ⟨?_, h₂⟩
    intro e
    rw [e] at h₁
    exact absurd h₁ (by decide)
  · rintro ⟨h₁, h₂⟩
    refine ⟨?_, h₂⟩
    rcases e : v.data.isEmpty with _ | _
    · rfl
    · rw [List.isEmpty_iff] at e
      exact absurd e h₁

theorem toNat?_isSome_iff (v : String) :
    v.toNat?.isSome = true ↔ (v.data ≠ [] ∧ v.data.all Char.isDigit = true) := by
  rw [toNat?_eq_matchesDigits, ← matchesDigits_iff]
  rcases h : matchesDigits v with _ | _ <;> simp [h]

/-! ### Parsing a query whose keys are fresh and pairwise distinct -/

theorem parseUrlParams_fresh (qs : List (String × String)) :
    ∀ d : ParamObject, (qs.map Prod.fst).Nodup →
      (∀ x ∈ qs.map Prod.fst, x ∉ objKeys d) →
      parseUrlParams qs d =
        d ++ qs.map (fun kv => (kv.1, coerceValue kv.2)) := by
  induction qs with
  | nil => intro d _ _; simp
  | cons kv rest ih =>
    intro d hnd hdisj
    obtain ⟨k, v⟩ := kv
    have hk : k ∉ objKeys d := hdisj k (by simp)
    have hstep : parseStep d k v = d ++ [(k, coerceValue v)] := by
      rw [parseStep, objGet_eq_none_of_not_mem d k hk]
      exact objSet_eq_append_of_not_mem d k _ hk
    rw [parseUrlParams_cons, hstep,
      ih (d ++ [(k, coerceValue v)]) (by simpa using hnd.of_cons) ?_]
    · simp
    · intro x hx
      have hxk : x ≠ k := by
        simp only [List.map_cons, List.nodup_cons] at hnd
        intro e
        exact hnd.1 (e ▸ hx)
      have hxd : x ∉ objKeys d := hdisj x (List.mem_cons_of_mem _ hx)
      rw [objKeys_append, List.mem_append]
      rintro (h | h)
      · exact hxd h
      · exact hxk (by simpa using h)

/-! ### Serializer lemmas -/

@[simp]
theorem buildQueryString_nil : buildQueryString [] = [] := rfl

@[simp]
theorem buildQueryString_cons (k : String) (v : JsVal) (rest : ParamObject) :
    buildQueryString ((k, v) :: rest) =
      entryPairs k v ++ buildQueryString rest := by
  simp [buildQueryString]

theorem entryPairs_fst (k : String) (v : JsVal) :
    ∀ pr ∈ entryPairs k v, pr.1 = k := by
  intro pr hpr
  rw [entryPairs.eq_def] at hpr
  split at hpr
  · simp at hpr
  · split at hpr
    · simp only [List.mem_map] at hpr
      obtain ⟨p, _, hp⟩ := hpr
      rw [← hp]
    · simp only [List.mem_singleton] at hpr
      rw [hpr]

theorem mem_buildQueryString_key (P : ParamObject) :
    ∀ pr ∈ buildQueryString P, pr.1 ∈ objKeys P := by
  induction P with
  | nil => simp
  | cons kv rest ih =>
    obtain ⟨k, v⟩ := kv
    intro pr hpr
    rw [buildQueryString_cons, List.mem_append] at hpr
    rcases hpr with h | h
    · simp [entryPairs_fst k v pr h]
    · simp [ih pr h]

theorem entryPairs_skip (k : String) (v : JsVal)
    (h : v = .prim .undef ∨ v = .prim .null ∨ v = .prim (.str "")) :
    entryPairs k v = [] := by
  rw [entryPairs.eq_def, if_pos h]

theorem entryPairs_prim (k : String) (p : JsPrim) (h₁ : p ≠ .undef)
    (h₂ : p ≠ .null) (h₃ : p ≠ .str "") :
    entryPairs k (.prim p) = [(k, jsString p)] := by
  rw [entryPairs.eq_def, if_neg (by simp [h₁, h₂, h₃])]

/-! ### Value classes for the round-trip claim -/

/-- A string with no ampersand and no equals sign, the restriction stated by
the round-trip claim. -/
def noAmpEq (s : String) : Bool :=
  s.data.all (fun c => !(c == '&') && !(c == '='))

/-- Value restriction exactly as the round-trip claim states it: strings
without ampersand or equals sign, booleans, and non-negative integers. -/
def claimVal : JsVal → Bool
  | .prim (.str s) => noAmpEq s
  | .prim (.num _) => true
  | .prim (.bool _) => true
  | .prim .null => false
  | .prim .undef => false
  | .arr _ => false

/-- Value restriction under which the round trip actually holds: as
`claimVal`, but string values must additionally be non-empty, differ from the
boolean literals, and not consist solely of decimal digits. -/
def roundVal : JsVal → Bool
  | .prim (.str s) =>
    noAmpEq s && !(s == "") && !(s == "true") && !(s == "false") &&
      !matchesDigits s
  | .prim (.num _) => true
  | .prim (.bool _) => true
  | .prim .null => false
  | .prim .undef => false
  | .arr _ => false

theorem roundVal_entry (k : String) (v : JsVal) (h : roundVal v = true) :
    ∃ s : String, entryPairs k v = [(k, s)] ∧ coerceValue s = v := by
  cases v with
  | arr l => exact absurd h (by simp [roundVal])
  | prim p =>
    cases p with
    | str s =>
      simp only [roundVal, Bool.and_eq_true] at h
      obtain ⟨⟨⟨⟨hA, h0⟩, ht⟩, hf⟩, hd⟩ := h
      have hs0 : s ≠ "" := by simpa using h0
      refine ⟨s, ?_, ?_⟩
      · exact entryPairs_prim k (.str s) (by simp) (by simp) (by simp [hs0])
      · exact coerceValue_of_plain_str s (by simpa using ht)
          (by simpa using hf) (by simpa using hd)
    | num n =>
      refine ⟨natToString n, ?_, coerceValue_natToString n⟩
      exact entryPairs_prim k (.num n) (by simp) (by simp) (by simp)
    | bool b =>
      cases b
      · exact ⟨"false",
          entryPairs_prim k (.bool false) (by simp) (by simp) (by simp),
          by decide⟩
      · exact ⟨"true",
          entryPairs_prim k (.bool true) (by simp) (by simp) (by simp),
          by decide⟩
    | null => exact absurd h (by simp [roundVal])
    | undef => exact absurd h (by simp [roundVal])

theorem buildQueryString_roundVal (P : ParamObject)
    (h : ∀ kv ∈ P, roundVal kv.2 = true) :
    (buildQueryString P).map (fun kv => (kv.1, coerceValue kv.2)) = P ∧
    (buildQueryString P).map Prod.fst = objKeys P := by
  induction P with
  | nil => simp
  | cons kv rest ih =>
    obtain ⟨k, v⟩ := kv
    have hv : roundVal v = true := h (k, v) (by simp)
    have hrest := ih (fun kv hkv => h kv (List.mem_cons_of_mem _ hkv))
    obtain ⟨s, hs, hcs⟩ := roundVal_entry k v hv
    rw [buildQueryString_cons, hs]
    constructor
    · simp [hcs, hrest.1]
    · simp [hrest.2]

/-! ### Claim theorems -/

/-- C1, counterexample: the parameter object mapping `k` to the string
`"true"` satisfies every restriction the claim states (its only value is a
string containing neither an ampersand nor an equals sign), yet parsing its
serialization with empty defaults returns the boolean `true` instead of the
string, so the object does not round-trip. -/
theorem claim1_counterexample :
    (objKeys [("k", JsVal.prim (.str "true"))]).Nodup ∧
    (∀ kv ∈ [("k", JsVal.prim (.str "true"))], claimVal kv.2 = true) ∧
    parseUrlParams (buildQueryString [("k", JsVal.prim (.str "true"))]) [] ≠
      [("k", JsVal.prim (.str "true"))] := by
  refine ⟨by decide, by decide, by decide⟩

/-- C1, amended: for every parameter object with distinct keys whose values
are booleans, non-negative integers, or non-empty strings without ampersand
or equals sign that are neither boolean literals nor all-digit strings,
`parseUrlParams` applied to `buildQueryString` of the object with empty
defaults returns the object itself. -/
theorem claim1_roundtrip (P : ParamObject) (hnd : (objKeys P).Nodup)
    (hval : ∀ kv ∈ P, roundVal kv.2 = true) :
    parseUrlParams (buildQueryString P) [] = P := by
  obtain ⟨hmap, hkeys⟩ := buildQueryString_roundVal P hval
  have h₁ : ((buildQueryString P).map Prod.fst).Nodup := by
    rw [hkeys]
    exact hnd
  have h₂ : ∀ x ∈ (buildQueryString P).map Prod.fst,
      x ∉ objKeys ([] : ParamObject) := by simp [objKeys]
  rw [parseUrlParams_fresh (buildQueryString P) [] h₁ h₂]
  simpa using hmap

/-- Witness for C1, amended: a concrete three-key object with a plain
string, an integer and a boolean value round-trips. -/
theorem claim1_roundtrip_witness :
    parseUrlParams (buildQueryString
      [("q", JsVal.prim (.str "hello")), ("page", JsVal.prim (.num 2)),
        ("active", JsVal.prim (.bool true))]) [] =
      [("q", JsVal.prim (.str "hello")), ("page", JsVal.prim (.num 2)),
        ("active", JsVal.prim (.bool true))] :=
  claim1_roundtrip _ (by decide) (by decide)

/-- C2, counterexample: `setPage` (through `setAndSync` and
`setTableParams`) issues a history write whose replace flag is true, not the
push the claim asserts. -/
theorem claim2_counterexample :
    (useTableUrlState.setPage [] 5).2.replace = true ∧
    ¬(useTableUrlState.setPage [] 5).2.replace = false := by
  exact ⟨rfl, by decide⟩

/-- C2, amended: every table mutator (setPage, setPageSize, setSearch,
setSort, setFilter, reset) writes the resulting state to the URL through
`setTableParams`, which defaults the replace option to true, so each write
replaces the current history entry instead of pushing a new one. -/
theorem claim2_mutators_replace (state : ParamObject) (page pageSize : Nat)
    (search sortField sortOrder key : String) (value : JsVal)
    (defaults : Option ParamObject) :
    (useTableUrlState.setPage state page).2.replace = true ∧
    (useTableUrlState.setPageSize state pageSize).2.replace = true ∧
    (useTableUrlState.setSearch state search).2.replace = true ∧
    (useTableUrlState.setSort state sortField sortOrder).2.replace = true ∧
    (useTableUrlState.setFilter state key value).2.replace = true ∧
    (useTableUrlState.reset defaults state).2.replace = true :=
  ⟨rfl, rfl, rfl, rfl, rfl, rfl⟩

/-- C3: when the defaults supply a defined non-sequence value for a key that
also occurs in the query string, `parseUrlParams` does not overwrite the
default with the coerced URL value but produces the sequence consisting of
the default value followed by the raw, uncoerced occurrences; in particular
`parseTableParams` (defaults `page = 1`) on a query containing `page=3`
yields `page = [1, "3"]` rather than the integer 3. -/
theorem claim3_default_collision (d : ParamObject) (k : String)
    (qs : List (String × String)) (p : JsPrim) (w : String) (ws : List String)
    (hd : objGet d k = some (.prim p)) (hp : p ≠ .undef)
    (hocc : occs k qs = w :: ws) :
    objGet (parseUrlParams qs d) k =
      some (.arr (p :: (w :: ws).map JsPrim.str)) ∧
    objGet (parseTableParams [("page", "3")] none) "page" =
      some (.arr [.num 1, .str "3"]) ∧
    objGet (parseTableParams [("page", "3")] none) "page" ≠
      some (.prim (.num 3)) := by
  refine ⟨?_, by decide, by decide⟩
  rw [objGet_parseUrlParams, hocc, List.foldl_cons, hd]
  rw [show stepFold (some (.prim p)) w = some (.arr [p, .str w]) from by
    rw [stepFold, stepVal_of_defined_prim p hp]]
  rw [foldl_stepFold_arr]
  simp

/-- Witness for C3: with default `page = 1` and the query `page=3`, the
parse result for `page` is the sequence `[1, "3"]`. -/
theorem claim3_witness :
    objGet (parseUrlParams [("page", "3")] [("page", JsVal.prim (.num 1))])
      "page" = some (.arr [.num 1, .str "3"]) := by
  have h := claim3_default_collision [("page", JsVal.prim (.num 1))] "page"
    [("page", "3")] (.num 1) "3" [] (by decide) (by decide) (by decide)
  simpa using h.1

/-- C4: for a key absent from the defaults that occurs more than once in the
query string, `parseUrlParams` accumulates the occurrences in order into a
sequence, coercing only the first occurrence and keeping the later ones as
raw strings; in particular parsing `tag=a&tag=b&tag=c` with empty defaults
yields `{tag: ["a","b","c"]}`. -/
theorem claim4_repeated_keys (d : ParamObject) (k : String)
    (qs : List (String × String)) (w₀ w₁ : String) (ws : List String)
    (hd : objGet d k = none ∨ objGet d k = some (.prim .undef))
    (hocc : occs k qs = w₀ :: w₁ :: ws) :
    (∃ c₀ : JsPrim, coerceValue w₀ = .prim c₀ ∧
      objGet (parseUrlParams qs d) k =
        some (.arr (c₀ :: (w₁ :: ws).map JsPrim.str))) ∧
    parseUrlParams [("tag", "a"), ("tag", "b"), ("tag", "c")] [] =
      [("tag", .arr [.str "a", .str "b", .str "c"])] := by
  refine ⟨?_, by decide⟩
  obtain ⟨c₀, hc₀, hcne⟩ := coerceValue_shape w₀
  refine ⟨c₀, hc₀, ?_⟩
  rw [objGet_parseUrlParams, hocc, List.foldl_cons, List.foldl_cons,
    stepFold_fresh _ hd, hc₀]
  rw [show stepFold (some (.prim c₀)) w₁ = some (.arr [c₀, .str w₁]) from by
    rw [stepFold, stepVal_of_defined_prim c₀ hcne]]
  rw [foldl_stepFold_arr]
  simp

/-- Witness for C4: the query `tag=a&tag=b&tag=c` with empty defaults
produces the sequence of the coercion of `"a"` followed by the raw strings
`"b"` and `"c"`. -/
theorem claim4_witness :
    ∃ c₀ : JsPrim, coerceValue "a" = .prim c₀ ∧
      objGet (parseUrlParams [("tag", "a"), ("tag", "b"), ("tag", "c")] [])
        "tag" = some (.arr (c₀ :: (["b", "c"]).map JsPrim.str)) :=
  (claim4_repeated_keys [] "tag" [("tag", "a"), ("tag", "b"), ("tag", "c")]
    "a" "b" ["c"] (Or.inl rfl) (by decide)).1

/-- C5: for a first-seen key (absent from the defaults, occurring once),
`parseUrlParams` stores `"true"` as the boolean true, `"false"` as the
boolean false, a string of decimal digits as the corresponding integer (the
library decimal parser, whose domain is exactly the strings matching the
digit test), and any other value as the string itself; the result is always
defined, so coercion is total. -/
theorem claim5_coercion_table (d : ParamObject) (k : String)
    (qs : List (String × String)) (v : String)
    (hd : objGet d k = none ∨ objGet d k = some (.prim .undef))
    (hocc : occs k qs = [v]) :
    (objGet (parseUrlParams qs d) k).isSome = true ∧
    objGet (parseUrlParams qs d) k = some (
      if v = "true" then .prim (.bool true)
      else if v = "false" then .prim (.bool false)
      else
        match v.toNat? with
        | some n => .prim (.num n)
        | none => .prim (.str v)) ∧
    (v.toNat?.isSome = true ↔
      (v.data ≠ [] ∧ v.data.all Char.isDigit = true)) := by
  have hmain : objGet (parseUrlParams qs d) k = some (coerceValue v) := by
    rw [objGet_parseUrlParams, hocc, List.foldl_cons, stepFold_fresh _ hd,
      List.foldl_nil]
  refine ⟨by rw [hmain]; rfl, ?_, toNat?_isSome_iff v⟩
  rw [hmain, coerceValue_eq_decision_table]

/-- Witness for C5: with no defaults, the single pair `x=abc` stores the
plain string, and the decision table evaluates accordingly. -/
theorem claim5_witness :
    (objGet (parseUrlParams [("x", "abc")] []) "x").isSome = true ∧
    objGet (parseUrlParams [("x", "abc")] []) "x" = some (
      if "abc" = "true" then .prim (.bool true)
      else if "abc" = "false" then .prim (.bool false)
      else
        match "abc".toNat? with
        | some n => .prim (.num n)
        | none => .prim (.str "abc")) ∧
    ("abc".toNat?.isSome = true ↔
      ("abc".data ≠ [] ∧ "abc".data.all Char.isDigit = true)) :=
  claim5_coercion_table [] "x" [("x", "abc")] "abc" (Or.inl rfl) (by decide)

/-- C6: for every parameter object with distinct keys, a key whose value is
absent, undefined, null, or the empty string contributes no pair to the
serialized query string. -/
theorem claim6_omission (P : ParamObject) (k : String) :
    (objKeys P).Nodup →
    (objGet P k = none ∨ objGet P k = some (.prim .undef) ∨
      objGet P k = some (.prim .null) ∨ objGet P k = some (.prim (.str ""))) →
    ∀ pr ∈ buildQueryString P, pr.1 ≠ k := by
  induction P with
  | nil => intro _ _; simp
  | cons kv rest ih =>
    intro hnd h
    obtain ⟨k₀, v₀⟩ := kv
    simp only [objKeys_cons, List.nodup_cons] at hnd
    intro pr hpr
    rw [buildQueryString_cons, List.mem_append] at hpr
    by_cases hk : k₀ = k
    · subst hk
      have hg : objGet ((k₀, v₀) :: rest) k₀ = some v₀ := by simp
      rw [hg] at h
      have hv : v₀ = .prim .undef ∨ v₀ = .prim .null ∨ v₀ = .prim (.str "") := by
        rcases h with h | h | h | h
        · simp at h
        · exact Or.inl (Option.some.inj h)
        · exact Or.inr (Or.inl (Option.some.inj h))
        · exact Or.inr (Or.inr (Option.some.inj h))
      rcases hpr with hpr | hpr
      · rw [entryPairs_skip k₀ v₀ hv] at hpr
        simp at hpr
      · intro e
        exact hnd.1 (e ▸ mem_buildQueryString_key rest pr hpr)
    · have hg : objGet ((k₀, v₀) :: rest) k = objGet rest k := by simp [hk]
      rw [hg] at h
      rcases hpr with hpr | hpr
      · intro e
        exact hk ((entryPairs_fst k₀ v₀ pr hpr) ▸ e)
      · exact ih hnd.2 h pr hpr

/-- Witness for C6: serializing an object whose key `a` is undefined emits
no pair for `a`. -/
theorem claim6_witness :
    (buildQueryString
      [("a", JsVal.prim .undef), ("b", JsVal.prim (.str "x"))]).all
      (fun pr => pr.1 ≠ "a") = true := by
  have h := claim6_omission
    [("a", JsVal.prim .undef), ("b", JsVal.prim (.str "x"))] "a"
    (by decide) (Or.inr (Or.inl (by decide)))
  rw [List.all_eq_true]
  intro pr hpr
  simpa using h pr hpr

/-- C7, counterexample: `setFilter` with the computed key `"page"` assigns
after the `page: 1` reset, so the resulting state has the supplied page
value, not 1, refuting the claim for that mutator call. -/
theorem claim7_counterexample :
    objGet (useTableUrlState.setFilter [("page", JsVal.prim (.num 2))] "page"
      (JsVal.prim (.num 7))).1 "page" = some (.prim (.num 7)) ∧
    ¬ objGet (useTableUrlState.setFilter [("page", JsVal.prim (.num 2))] "page"
      (JsVal.prim (.num 7))).1 "page" = some (.prim (.num 1)) := by
  refine ⟨by decide, by decide⟩

/-- C7, amended: from every table state, `setPageSize`, `setSearch`, and
`setFilter` with a key other than `"page"` produce a state whose page field
is 1, `setSearch` and `setFilter` store an empty-string argument as
undefined (absent), and `setSort` leaves the page field unchanged; in
particular `setPage 5` followed by `setSearch "x"` gives page 1 and search
`"x"`. -/
theorem claim7_page_reset (state : ParamObject) (pageSize : Nat)
    (search sortField sortOrder key : String) (value : JsVal)
    (hk : key ≠ "page") :
    objGet (useTableUrlState.setPageSize state pageSize).1 "page" =
      some (.prim (.num 1)) ∧
    objGet (useTableUrlState.setSearch state search).1 "page" =
      some (.prim (.num 1)) ∧
    objGet (useTableUrlState.setFilter state key value).1 "page" =
      some (.prim (.num 1)) ∧
    objGet (useTableUrlState.setSearch state "").1 "search" =
      some (.prim .undef) ∧
    objGet (useTableUrlState.setFilter state key (JsVal.prim (.str ""))).1 key
      = some (.prim .undef) ∧
    objGet (useTableUrlState.setSort state sortField sortOrder).1 "page" =
      objGet state "page" ∧
    objGet (useTableUrlState.setSearch
      (useTableUrlState.setPage state 5).1 "x").1 "page" =
      some (.prim (.num 1)) ∧
    objGet (useTableUrlState.setSearch
      (useTableUrlState.setPage state 5).1 "x").1 "search" =
      some (.prim (.str "x")) := by
  have h₁ : ("pageSize" : String) ≠ "page" := by decide
  have h₂ : ("search" : String) ≠ "page" := by decide
  have h₃ : ("sortField" : String) ≠ "page" := by decide
  have h₄ : ("sortOrder" : String) ≠ "page" := by decide
  have h₅ : ("page" : String) ≠ "search" := by decide
  refine ⟨?_, ?_, ?_, ?_, ?_, ?_, ?_, ?_⟩ <;>
    simp [useTableUrlState.setPage, useTableUrlState.setPageSize,
      useTableUrlState.setSearch, useTableUrlState.setSort,
      useTableUrlState.setFilter, useTableUrlState.setAndSync,
      objGet_objSet, h₁, h₂, h₃, h₄, h₅, hk]

/-- Witness for C7, amended: concrete instantiation on the empty state with
the filter key `"tag"`. -/
theorem claim7_witness :
    objGet (useTableUrlState.setPageSize [] 20).1 "page" =
      some (.prim (.num 1)) ∧
    objGet (useTableUrlState.setFilter [] "tag" (JsVal.prim (.num 3))).1
      "page" = some (.prim (.num 1)) := by
  have h := claim7_page_reset [] 20 "q" "f" "asc" "tag"
    (JsVal.prim (.num 3)) (by decide)
  exact ⟨h.1, h.2.2.1⟩

/-- C8: the popstate handlers of both hooks re-derive the in-memory state by
re-parsing the current query string over the defaults and emit no history
write, so applying their emitted writes leaves the world, and in particular
the history stack length, unchanged. -/
theorem claim8_popstate_no_write (defaults : Option ParamObject) (w : World) :
    (useUrlState.handlePopState defaults w).2 = [] ∧
    (useUrlState.handlePopState defaults w).2.foldl applyWrite w = w ∧
    (useUrlState.handlePopState defaults w).1 =
      parseUrlParams w.query (defaults.getD []) ∧
    (useTableUrlState.handlePopState defaults w).2 = [] ∧
    ((useTableUrlState.handlePopState defaults w).2.foldl applyWrite w).histLen
      = w.histLen ∧
    (useTableUrlState.handlePopState defaults w).1 =
      parseTableParams w.query defaults :=
  ⟨rfl, rfl, rfl, rfl, rfl, rfl⟩

/-- C9, code bug evidence: at the failing input (a store created with no
defaults), `reset` sets the in-memory state to undefined rather than the
empty parameter object, while the history write correctly serializes the
empty object and pushes. -/
theorem claim9_reset_no_defaults :
    useUrlState.reset none = (none, { pairs := [], replace := false }) ∧
    (useUrlState.reset none).1 ≠ some ([] : ParamObject) := by
  refine ⟨rfl, by decide⟩

/-- C10: the table reset ignores the current state and always produces
`{ page: 1, pageSize: 10, ...defaults }`, so two consecutive resets yield
the identical state both times. -/
theorem claim10_reset_idempotent (defaults : Option ParamObject)
    (state : ParamObject) :
    (useTableUrlState.reset defaults state).1 =
      mergeObj tableBase (defaults.getD []) ∧
    (useTableUrlState.reset defaults
        (useTableUrlState.reset defaults state).1).1 =
      (useTableUrlState.reset defaults state).1 :=
  ⟨rfl, rfl⟩
